import Mathlib

/-!
Shallow embedding of `src/main.py` (FileOrganizer): a script that walks a
source tree and copies or moves supported files into a destination tree
organized as `dest/YYYY/MM/`, with a pre-flight disk-space and confirmation
gate and collision-safe naming.

Modelling conventions:
* Filesystem paths are component lists (`List String`), mirroring `pathlib`
  joins `dir / name`.
* The filesystem is an explicit state `FS`: the set of existing regular files
  and the set of existing directories, each as a list of paths.
* Python `float` arithmetic in the space gate (`total_size * 0.1`) is modelled
  as exact rational arithmetic over `ℚ`.
* `input()` lines and `KeyboardInterrupt` at the confirmation prompt are an
  explicit event list; an input stream that never yields a decisive answer
  makes the real program re-prompt forever, which is modelled as a cancelled
  run (in both cases no file is transferred and no counter moves).
* Timestamps are naturals; `datetime` values are `Date` records carrying the
  `year`/`month` fields that the program reads.
-/

/-- A calendar date as used by the program: only `year` and `month` are ever
read (`strftime "%Y"` / `"%m"` in `create_destination_structure`). -/
structure Date where
  year : Nat
  month : Nat
deriving DecidableEq, Repr

/-- Result of a successful `Path.stat()` call, as read by `get_file_date`:
`st_birthtime` when the platform exposes it, and `st_mtime`. -/
structure StatResult where
  birthtime : Option Nat
  mtime : Nat
deriving DecidableEq, Repr

/-- The filesystem state: existing regular files and existing directories,
as lists of component paths. -/
structure FS where
  files : List (List String)
  dirs : List (List String)
deriving DecidableEq, Repr

/-- The constructor flags of `FileOrganizer` (source/destination roots are
passed separately where needed). -/
structure Config where
  dry_run : Bool
  copy_mode : Bool
  skip_confirm : Bool
deriving DecidableEq, Repr

/-- The two counters of the organizer (`processed_files`, `skipped_files`). -/
structure RunStats where
  processed : Nat
  skipped : Nat
deriving DecidableEq, Repr

/-- One regular file found by the recursive walk `source_dir.rglob('*')`:
its name split as `stem`/`suffix` (pathlib's split), the date resolved by
`get_file_date`, its full source path, the size reported by `stat()` (`none`
when the stat in `calculate_total_size` raises), and the error message of the
underlying `shutil` call (`none` when the copy/move succeeds). -/
structure FileEntry where
  stem : String
  suffix : String
  date : Date
  path : List String
  size : Option Nat
  transferError : Option String
deriving DecidableEq, Repr

/-- The supported extension set of `FileOrganizer.__init__` (lines 27-40 of
`src/main.py`); `.pdf` is listed there under both Adobe files and documents,
the set contains it once. -/
def supported_extensions : List String :=
  [".jpg", ".jpeg", ".png", ".gif", ".bmp", ".tiff", ".tif", ".webp",
   ".heic", ".heif", ".raw", ".cr2", ".nef", ".arw", ".dng",
   ".psd", ".ai", ".eps", ".pdf", ".indd", ".psb",
   ".mp4", ".mov", ".avi", ".mkv", ".wmv", ".flv", ".webm", ".m4v",
   ".qt", ".3gp", ".mpg", ".mpeg", ".m2v", ".mts", ".m2ts",
   ".mp3", ".wav", ".flac", ".aac", ".ogg", ".wma", ".m4a",
   ".doc", ".docx", ".txt", ".rtf", ".pages"]

/-- Python `str.lower()`: lower-case each character (ASCII case mapping). -/
def pyLower (s : String) : String :=
  (s.data.map Char.toLower).asString

/-- Python `str.strip()`: drop whitespace from both ends. -/
def pyStrip (s : String) : String :=
  (((s.data.dropWhile Char.isWhitespace).reverse.dropWhile Char.isWhitespace).reverse).asString

/-- `is_supported_file`: the lower-cased extension is in the supported set. -/
def is_supported_file (suffix : String) : Bool :=
  decide (pyLower suffix ∈ supported_extensions)

/-- `get_file_date`: prefer `st_birthtime` when present, else `st_mtime`;
when the `stat` call raises (`statRes = none`) return the current time. -/
def get_file_date (statRes : Option StatResult) (now : Nat) : Nat :=
  match statRes with
  | some st =>
    match st.birthtime with
    | some b => b
    | none => st.mtime
  | none => now

/-- `calculate_total_size`: sum the sizes of supported files, counting only
those whose `stat` succeeds; a stat failure is logged and excluded. -/
def calculate_total_size : List FileEntry → Nat × Nat
  | [] => (0, 0)
  | e :: rest =>
    let tc := calculate_total_size rest
    if is_supported_file e.suffix then
      match e.size with
      | some s => (tc.1 + s, tc.2 + 1)
      | none => tc
    else tc

/-- Decimal rendering of a natural number, the model of Python `str(n)` /
`strftime "%Y"`: most-significant digit first, and `"0"` for zero. -/
def digitChar (d : Nat) : Char := Char.ofNat (48 + d)

/-- Little-endian base-10 digit list, by fuel-bounded structural recursion
(equal to `Nat.digits 10`, see `decDigits_eq_digits`). -/
def decDigitsAux : Nat → Nat → List Nat
  | 0, _ => []
  | _ + 1, 0 => []
  | fuel + 1, n + 1 => ((n + 1) % 10) :: decDigitsAux fuel ((n + 1) / 10)

/-- Little-endian base-10 digits of `n`. -/
def decDigits (n : Nat) : List Nat := decDigitsAux n n

/-- See `digitChar`: the decimal numeral string of `n`. -/
def natStr (n : Nat) : String :=
  if n = 0 then "0" else ((decDigits n).reverse.map digitChar).asString

/-- `strftime "%m"`: the month zero-padded to two digits. -/
def zfill2 (n : Nat) : String :=
  if n < 10 then "0" ++ natStr n else natStr n

/-- `create_destination_structure`: the directory `backup_dir/YYYY/MM`,
created (idempotently) unless the run is a dry run. -/
def create_destination_structure (cfg : Config) (backup : List String)
    (d : Date) (fs : FS) : List String × FS :=
  let destination_path := backup ++ [natStr d.year, zfill2 d.month]
  if cfg.dry_run then (destination_path, fs)
  else (destination_path,
    { fs with dirs := if destination_path ∈ fs.dirs then fs.dirs
                      else destination_path :: fs.dirs })

/-- The candidate names tried by the collision loop of `process_file`:
`stem ++ suffix` first, then `stem_1.suffix`, `stem_2.suffix`, ... -/
def candName (stem suffix : String) (k : Nat) : String :=
  if k = 0 then stem ++ suffix else stem ++ "_" ++ natStr k ++ suffix

/-- The candidate destination path for counter value `k`. -/
def candPath (destDir : List String) (stem suffix : String) (k : Nat) : List String :=
  destDir ++ [candName stem suffix k]

/-- The `while destination_file.exists()` loop of `process_file`, with
explicit fuel; the fuel chosen in `findDest` always suffices. -/
def findDestAux (fs : FS) (destDir : List String) (stem suffix : String) :
    Nat → Nat → List String
  | k, 0 => candPath destDir stem suffix k
  | k, fuel + 1 =>
    if candPath destDir stem suffix k ∈ fs.files then
      findDestAux fs destDir stem suffix (k + 1) fuel
    else candPath destDir stem suffix k

/-- The destination file chosen by `process_file`: the first candidate name
not already present. -/
def findDest (fs : FS) (destDir : List String) (stem suffix : String) : List String :=
  findDestAux fs destDir stem suffix 0 (fs.files.length + 1)

/-- `a == b && ...` character-wise check that `needle` starts `hay`. -/
def matchesAt : List Char → List Char → Bool
  | [], _ => true
  | _ :: _, [] => false
  | a :: as, b :: bs => a == b && matchesAt as bs

/-- Whether `needle` occurs contiguously inside the character list. -/
def hasSub (needle : List Char) : List Char → Bool
  | [] => needle.isEmpty
  | c :: rest => matchesAt needle (c :: rest) || hasSub needle rest

/-- Python's `needle in hay` on strings. -/
def strContains (hay needle : String) : Bool := hasSub needle.data hay.data

/-- The error classification of `process_file` (lines 197-203): a message
containing `"No space left on device"`, or whose lower-casing contains
`"not enough space"`, is the distinguished disk-full diagnostic. -/
def classify_disk_full (msg : String) : Bool :=
  strContains msg "No space left on device" ||
    strContains (pyLower msg) "not enough space"

/-- Outcome of `process_file` for one file: `success` (the function returns
`True`), or skipped with the disk-full or the generic diagnostic (returns
`False`). -/
inductive TransferOutcome where
  | success
  | skippedDiskFull
  | skippedGeneric
deriving DecidableEq, Repr

/-- `process_file`: resolve the collision-free destination name; in a dry run
report and mutate nothing; otherwise copy (`shutil.copy2`) or move
(`shutil.move`), and on an exception classify its message and return `False`
without mutating the tree. -/
def process_file (cfg : Config) (e : FileEntry) (destDir : List String)
    (fs : FS) : TransferOutcome × FS :=
  let destination_file := findDest fs destDir e.stem e.suffix
  if cfg.dry_run then (.success, fs)
  else
    match e.transferError with
    | some msg =>
      (if classify_disk_full msg then .skippedDiskFull else .skippedGeneric, fs)
    | none =>
      if cfg.copy_mode then
        (.success, { fs with files := destination_file :: fs.files })
      else
        (.success, { fs with files := destination_file :: fs.files.erase e.path })

/-- One iteration of the main transfer walk (lines 280-296): supported files
get a destination directory and are processed, counting `processed` on
success and `skipped` on failure; unsupported files are counted `skipped`. -/
def walkStep (cfg : Config) (backup : List String) (acc : RunStats × FS)
    (e : FileEntry) : RunStats × FS :=
  if is_supported_file e.suffix then
    let ds := create_destination_structure cfg backup e.date acc.2
    let pr := process_file cfg e ds.1 ds.2
    match pr.1 with
    | .success => ({ acc.1 with processed := acc.1.processed + 1 }, pr.2)
    | _ => ({ acc.1 with skipped := acc.1.skipped + 1 }, pr.2)
  else ({ acc.1 with skipped := acc.1.skipped + 1 }, acc.2)

/-- The main transfer walk over the files found by `rglob`. -/
def walkFiles (cfg : Config) (backup : List String) :
    RunStats × FS → List FileEntry → RunStats × FS
  | acc, [] => acc
  | acc, e :: rest => walkFiles cfg backup (walkStep cfg backup acc e) rest

/-- An event at the confirmation prompt: a line typed by the user, or a
keyboard interrupt. -/
inductive PromptEvent where
  | line (s : String)
  | interrupt
deriving DecidableEq, Repr

/-- One iteration of the `while True` loop in `confirm_operation`:
`some b` ends the loop with answer `b`, `none` re-prompts. -/
def promptAnswer (e : PromptEvent) : Option Bool :=
  match e with
  | .interrupt => some false
  | .line s =>
    let response := pyLower (pyStrip s)
    if response = "y" ∨ response = "yes" then some true
    else if response = "n" ∨ response = "no" ∨ response = "" then some false
    else none

/-- `confirm_operation` over the stream of prompt events: the first decisive
event answers; `none` models an input stream on which the loop never
returns. -/
def confirm_operation : List PromptEvent → Option Bool
  | [] => none
  | e :: rest =>
    match promptAnswer e with
    | some b => some b
    | none => confirm_operation rest

/-- The space the run requires (lines 244-249): the full total in copy mode,
a 10% buffer (`total_size * 0.1`, modelled exactly over `ℚ`) in move mode. -/
def requiredSpace (copyMode : Bool) (total : Nat) : ℚ :=
  if copyMode then (total : ℚ) else (total : ℚ) * (1 / 10)

/-- The space check `available_space < required_space`; a failed
`os.statvfs` (`available = none`) reports infinite space, so never refuses. -/
def spaceRefused (copyMode : Bool) (available : Option Nat) (total : Nat) : Bool :=
  match available with
  | none => false
  | some a => if (a : ℚ) < requiredSpace copyMode total then true else false

/-- How a run of `organize_files` ends: missing source directory, refusal at
the space gate, cancellation at the prompt, or a completed walk. -/
inductive Outcome where
  | noSource
  | refusedSpace
  | cancelled
  | completed
deriving DecidableEq, Repr

/-- The pre-flight gate of `organize_files` (lines 226-277): entered when in
copy mode or not a dry run, and only when the computed total is positive; in
a real run it first refuses on insufficient space and then, unless
auto-confirmed, blocks on the prompt. -/
def preflight (cfg : Config) (total : Nat) (available : Option Nat)
    (events : List PromptEvent) : Option Outcome :=
  if cfg.copy_mode || !cfg.dry_run then
    if 0 < total then
      if !cfg.dry_run && spaceRefused cfg.copy_mode available total then
        some .refusedSpace
      else if !cfg.dry_run && !cfg.skip_confirm then
        if confirm_operation events = some true then none else some .cancelled
      else none
    else none
  else none

/-- `organize_files`: precondition on the source directory, the pre-flight
gate, then the transfer walk; a gated return leaves both counters at zero and
the filesystem untouched. -/
def organize_files (cfg : Config) (backup : List String) (sourceExists : Bool)
    (entries : List FileEntry) (available : Option Nat)
    (events : List PromptEvent) (fs0 : FS) : Outcome × RunStats × FS :=
  if sourceExists then
    match preflight cfg (calculate_total_size entries).1 available events with
    | some o => (o, ⟨0, 0⟩, fs0)
    | none =>
      let r := walkFiles cfg backup (⟨0, 0⟩, fs0) entries
      (.completed, r.1, r.2)
  else (.noSource, ⟨0, 0⟩, fs0)

/-- The command-line flags parsed by `main` (lines 303-311). -/
structure Args where
  source : String
  destination : String
  dry_run : Bool
  execute : Bool
  copy : Bool
  yes : Bool
deriving DecidableEq, Repr

/-- How `main` builds the `FileOrganizer` flags (lines 313-326):
`dry_run = not args.execute`; the parsed `--dry-run` flag is never read. -/
def mainConfig (a : Args) : Config :=
  { dry_run := !a.execute, copy_mode := a.copy, skip_confirm := a.yes }

/-! ### Numeral rendering lemmas -/

theorem decDigitsAux_eq_digits : ∀ (fuel n : Nat), n ≤ fuel → decDigitsAux fuel n = Nat.digits 10 n
  | 0, 0, _ => by simp [decDigitsAux]
  | 0, n + 1, h => absurd h (by omega)
  | _ + 1, 0, _ => by simp [decDigitsAux]
  | fuel + 1, n + 1, h => by
    have hdiv : (n + 1) / 10 < n + 1 := Nat.div_lt_self (Nat.succ_pos n) (by norm_num)
    rw [decDigitsAux, Nat.digits_def' (by norm_num : (1:Nat) < 10) (Nat.succ_pos n),
      decDigitsAux_eq_digits fuel ((n + 1) / 10) (by omega)]

theorem decDigits_eq_digits (n : Nat) : decDigits n = Nat.digits 10 n :=
  decDigitsAux_eq_digits n n (Nat.le_refl n)

theorem digitChar_inj_lt : ∀ a < 10, ∀ b < 10, digitChar a = digitChar b → a = b := by
  decide

theorem map_digitChar_inj : ∀ (l1 l2 : List Nat), (∀ d ∈ l1, d < 10) → (∀ d ∈ l2, d < 10) →
    l1.map digitChar = l2.map digitChar → l1 = l2
  | [], [], _, _, _ => rfl
  | [], _ :: _, _, _, h => by simp at h
  | _ :: _, [], _, _, h => by simp at h
  | a :: as, b :: bs, h1, h2, h => by
    simp only [List.map_cons, List.cons.injEq] at h
    have ha : a = b := digitChar_inj_lt a (h1 a (by simp)) b (h2 b (by simp)) h.1
    have htail : as = bs :=
      map_digitChar_inj as bs (fun d hd => h1 d (by simp [hd])) (fun d hd => h2 d (by simp [hd])) h.2
    rw [ha, htail]

theorem digits_bound (n : Nat) : ∀ d ∈ (Nat.digits 10 n).reverse, d < 10 := by
  intro d hd
  exact Nat.digits_lt_base (by norm_num) (List.mem_reverse.mp hd)

theorem natStr_data_of_ne_zero {n : Nat} (h : n ≠ 0) :
    (natStr n).data = (Nat.digits 10 n).reverse.map digitChar := by
  rw [natStr, if_neg h, decDigits_eq_digits]
  rfl

theorem natStr_data_inj : ∀ (a b : Nat), (natStr a).data = (natStr b).data → a = b := by
  intro a b hd
  by_cases ha : a = 0 <;> by_cases hb : b = 0
  · rw [ha, hb]
  · exfalso
    rw [ha, natStr_data_of_ne_zero hb] at hd
    have hd0 : ([0] : List Nat).map digitChar = (Nat.digits 10 b).reverse.map digitChar := by
      simpa [natStr, digitChar] using hd
    have : ([0] : List Nat) = (Nat.digits 10 b).reverse :=
      map_digitChar_inj _ _ (by simp) (digits_bound b) hd0
    have hrev : Nat.digits 10 b = [0] := by
      have := congrArg List.reverse this
      simpa using this.symm
    have := Nat.ofDigits_digits 10 b
    rw [hrev] at this
    simp [Nat.ofDigits] at this
    exact hb this.symm
  · exfalso
    rw [hb, natStr_data_of_ne_zero ha] at hd
    have hd0 : (Nat.digits 10 a).reverse.map digitChar = ([0] : List Nat).map digitChar := by
      simpa [natStr, digitChar] using hd
    have : (Nat.digits 10 a).reverse = ([0] : List Nat) :=
      map_digitChar_inj _ _ (digits_bound a) (by simp) hd0
    have hrev : Nat.digits 10 a = [0] := by
      have := congrArg List.reverse this
      simpa using this
    have := Nat.ofDigits_digits 10 a
    rw [hrev] at this
    simp [Nat.ofDigits] at this
    exact ha this.symm
  · rw [natStr_data_of_ne_zero ha, natStr_data_of_ne_zero hb] at hd
    have : (Nat.digits 10 a).reverse = (Nat.digits 10 b).reverse :=
      map_digitChar_inj _ _ (digits_bound a) (digits_bound b) hd
    exact Nat.digits.injective 10 (List.reverse_injective this)

theorem natStr_injective : ∀ (a b : Nat), natStr a = natStr b → a = b :=
  fun a b h => natStr_data_inj a b (congrArg String.data h)

theorem natStr_length_eq_digits_length {n : Nat} (h : n ≠ 0) :
    (natStr n).length = (Nat.digits 10 n).length := by
  have hlen : (natStr n).data.length = ((Nat.digits 10 n).reverse.map digitChar).length :=
    congrArg List.length (natStr_data_of_ne_zero h)
  simpa using hlen

theorem natStr_length_pos (n : Nat) : 0 < (natStr n).length := by
  by_cases h : n = 0
  · rw [h]
    decide
  · rw [natStr_length_eq_digits_length h]
    exact List.length_pos.mpr (Nat.digits_ne_nil_iff_ne_zero.mpr h)

theorem natStr_length_four {n : Nat} (h1 : 1000 ≤ n) (h2 : n ≤ 9999) :
    (natStr n).length = 4 := by
  have hn : n ≠ 0 := by omega
  have hlog : Nat.log 10 n = 3 :=
    Nat.log_eq_of_pow_le_of_lt_pow (by norm_num; omega) (by norm_num; omega)
  rw [natStr_length_eq_digits_length hn, Nat.digits_len 10 n (by norm_num) hn, hlog]

/-! ### Collision-safe naming lemmas -/

theorem candName_inj (stem suffix : String) : Function.Injective (candName stem suffix) := by
  intro j k h
  by_cases hj : j = 0 <;> by_cases hk : k = 0
  · rw [hj, hk]
  · exfalso
    simp only [candName] at h
    rw [if_pos hj, if_neg hk] at h
    have h1 := congrArg String.length h
    simp only [String.length_append] at h1
    have h2 : ("_" : String).length = 1 := rfl
    have h3 := natStr_length_pos k
    omega
  · exfalso
    simp only [candName] at h
    rw [if_neg hj, if_pos hk] at h
    have h1 := congrArg String.length h
    simp only [String.length_append] at h1
    have h2 : ("_" : String).length = 1 := rfl
    have h3 := natStr_length_pos j
    omega
  · simp only [candName] at h
    rw [if_neg hj, if_neg hk] at h
    have hd := congrArg String.data h
    simp only [String.data_append, List.append_assoc] at hd
    have hd1 := List.append_cancel_left hd
    have hd2 := List.append_cancel_left hd1
    have hd3 := List.append_cancel_right hd2
    exact natStr_data_inj j k hd3

theorem candPath_inj (destDir : List String) (stem suffix : String) :
    Function.Injective (candPath destDir stem suffix) := by
  intro j k h
  simp only [candPath] at h
  have h1 := List.append_cancel_left h
  simp only [List.cons.injEq, and_true] at h1
  exact candName_inj stem suffix h1

theorem exists_free_cand (fs : FS) (destDir : List String) (stem suffix : String) :
    ∃ j, j < fs.files.length + 1 ∧ candPath destDir stem suffix j ∉ fs.files := by
  by_contra hcon
  push_neg at hcon
  have hsub : ∀ x ∈ (List.range (fs.files.length + 1)).map (candPath destDir stem suffix),
      x ∈ fs.files := by
    intro x hx
    rw [List.mem_map] at hx
    obtain ⟨j, hj, rfl⟩ := hx
    exact hcon j (List.mem_range.mp hj)
  have hnodup : ((List.range (fs.files.length + 1)).map (candPath destDir stem suffix)).Nodup :=
    (List.nodup_range (fs.files.length + 1)).map (candPath_inj destDir stem suffix)
  have h1 : ((List.range (fs.files.length + 1)).map (candPath destDir stem suffix)).toFinset.card
      = fs.files.length + 1 := by
    rw [List.toFinset_card_of_nodup hnodup]
    simp
  have h2 : ((List.range (fs.files.length + 1)).map (candPath destDir stem suffix)).toFinset
      ⊆ fs.files.toFinset := by
    intro x hx
    rw [List.mem_toFinset] at hx ⊢
    exact hsub x hx
  have h3 := Finset.card_le_card h2
  have h4 := List.toFinset_card_le fs.files
  omega

theorem findDestAux_spec (fs : FS) (destDir : List String) (stem suffix : String) :
    ∀ (fuel k : Nat), (∃ j, j < fuel ∧ candPath destDir stem suffix (k + j) ∉ fs.files) →
      findDestAux fs destDir stem suffix k fuel ∉ fs.files ∧
      ∃ m, findDestAux fs destDir stem suffix k fuel = candPath destDir stem suffix (k + m) ∧
        ∀ i < m, candPath destDir stem suffix (k + i) ∈ fs.files
  | 0, _, h => absurd h (by simp)
  | fuel + 1, k, h => by
    by_cases hmem : candPath destDir stem suffix k ∈ fs.files
    · have hrec : ∃ j, j < fuel ∧ candPath destDir stem suffix (k + 1 + j) ∉ fs.files := by
        obtain ⟨j, hj, hnot⟩ := h
        rcases j with _ | j'
        · exact absurd hmem (by simpa using hnot)
        · refine ⟨j', by omega, ?_⟩
          have harith : k + 1 + j' = k + (j' + 1) := by omega
          rw [harith]
          exact hnot
      have ih := findDestAux_spec fs destDir stem suffix fuel (k + 1) hrec
      simp only [findDestAux, if_pos hmem]
      refine ⟨ih.1, ?_⟩
      obtain ⟨m, hm1, hm2⟩ := ih.2
      refine ⟨m + 1, ?_, ?_⟩
      · rw [hm1]
        congr 1
        omega
      · intro i hi
        rcases i with _ | i'
        · simpa using hmem
        · have harith : k + (i' + 1) = k + 1 + i' := by omega
          rw [harith]
          exact hm2 i' (by omega)
    · simp only [findDestAux, if_neg hmem]
      exact ⟨hmem, 0, by simp, by intro i hi; omega⟩

theorem findDest_spec (fs : FS) (destDir : List String) (stem suffix : String) :
    findDest fs destDir stem suffix ∉ fs.files ∧
    ∃ m, findDest fs destDir stem suffix = candPath destDir stem suffix m ∧
      ∀ i < m, candPath destDir stem suffix i ∈ fs.files := by
  obtain ⟨j, hj, hfree⟩ := exists_free_cand fs destDir stem suffix
  have h := findDestAux_spec fs destDir stem suffix (fs.files.length + 1) 0
    ⟨j, hj, by simpa using hfree⟩
  rw [findDest]
  refine ⟨h.1, ?_⟩
  obtain ⟨m, hm1, hm2⟩ := h.2
  exact ⟨m, by simpa using hm1, fun i hi => by simpa using hm2 i hi⟩

/-! ### Run-level helper lemmas -/

theorem walkFiles_dry (cfg : Config) (backup : List String) (hdry : cfg.dry_run = true) :
    ∀ (entries : List FileEntry) (stats : RunStats) (fs : FS),
      walkFiles cfg backup (stats, fs) entries =
        ({ processed :=
             stats.processed + (entries.filter (fun e => is_supported_file e.suffix)).length,
           skipped :=
             stats.skipped + (entries.filter (fun e => !is_supported_file e.suffix)).length }, fs)
  | [], stats, fs => by simp [walkFiles]
  | e :: rest, stats, fs => by
    rw [walkFiles]
    by_cases hs : is_supported_file e.suffix = true
    · have hstep : walkStep cfg backup (stats, fs) e =
          ({ stats with processed := stats.processed + 1 }, fs) := by
        simp [walkStep, hs, create_destination_structure, process_file, hdry]
      rw [hstep, walkFiles_dry cfg backup hdry rest]
      simp only [List.filter_cons, hs, Bool.not_true, if_true, List.length_cons,
        Prod.mk.injEq, RunStats.mk.injEq]
      exact ⟨⟨by omega, by simp⟩, trivial⟩
    · have hsf : is_supported_file e.suffix = false := by
        revert hs
        cases is_supported_file e.suffix <;> simp
      have hstep : walkStep cfg backup (stats, fs) e =
          ({ stats with skipped := stats.skipped + 1 }, fs) := by
        simp [walkStep, hsf]
      rw [hstep, walkFiles_dry cfg backup hdry rest]
      simp only [List.filter_cons, hsf, Bool.not_false, if_true, List.length_cons,
        Prod.mk.injEq, RunStats.mk.injEq]
      exact ⟨⟨by simp, by omega⟩, trivial⟩

theorem preflight_dry (cfg : Config) (total : Nat) (available : Option Nat)
    (events : List PromptEvent) (hdry : cfg.dry_run = true) :
    preflight cfg total available events = none := by
  simp [preflight, hdry]

theorem spaceRefused_pos {c : Bool} {available : Option Nat} {t : Nat}
    (h : spaceRefused c available t = true) : 0 < t := by
  match available with
  | none => simp [spaceRefused] at h
  | some a =>
    by_contra ht
    have ht0 : t = 0 := by omega
    subst ht0
    rw [spaceRefused] at h
    have hreq : requiredSpace c 0 = 0 := by
      rcases c <;> simp [requiredSpace]
    rw [hreq, if_neg (not_lt.mpr (Nat.cast_nonneg a))] at h
    exact Bool.false_ne_true h

theorem preflight_real_refused (cfg : Config) (total : Nat) (available : Option Nat)
    (events : List PromptEvent) (hreal : cfg.dry_run = false)
    (hsp : spaceRefused cfg.copy_mode available total = true) :
    preflight cfg total available events = some .refusedSpace := by
  have hpos : 0 < total := spaceRefused_pos hsp
  simp [preflight, hreal, hpos, hsp]

theorem preflight_total_zero (cfg : Config) (available : Option Nat)
    (events : List PromptEvent) : preflight cfg 0 available events = none := by
  simp [preflight]

theorem cds_fst (cfg : Config) (backup : List String) (d : Date) (fs : FS) :
    (create_destination_structure cfg backup d fs).1
      = backup ++ [natStr d.year, zfill2 d.month] := by
  rw [create_destination_structure]
  split <;> rfl

theorem confirm_yes_exists : ∀ (evs : List PromptEvent), confirm_operation evs = some true →
    ∃ s, PromptEvent.line s ∈ evs ∧ (pyLower (pyStrip s) = "y" ∨ pyLower (pyStrip s) = "yes")
  | [], h => by simp [confirm_operation] at h
  | e :: rest, h => by
    rw [confirm_operation] at h
    cases hpa : promptAnswer e with
    | some b =>
      rw [hpa] at h
      have hb : b = true := by simpa using h
      subst hb
      cases e with
      | interrupt => simp [promptAnswer] at hpa
      | line s =>
        simp only [promptAnswer] at hpa
        by_cases hy : pyLower (pyStrip s) = "y" ∨ pyLower (pyStrip s) = "yes"
        · exact ⟨s, by simp, hy⟩
        · exfalso
          rw [if_neg hy] at hpa
          by_cases hn : pyLower (pyStrip s) = "n" ∨ pyLower (pyStrip s) = "no"
              ∨ pyLower (pyStrip s) = ""
          · rw [if_pos hn] at hpa
            simp at hpa
          · rw [if_neg hn] at hpa
            simp at hpa
    | none =>
      rw [hpa] at h
      obtain ⟨s, hmem, hy⟩ := confirm_yes_exists rest h
      exact ⟨s, List.mem_cons_of_mem e hmem, hy⟩

/-! ### Claim theorems -/

/-- C3: in a dry run `organize_files` never mutates the filesystem — the
resulting `FS` is exactly the initial one, so no directory is created and no
file is copied or moved — while the counters still report what would be
processed (every supported file) and skipped (every unsupported file). -/
theorem C3_dry_run_frame (cfg : Config) (backup : List String)
    (entries : List FileEntry) (available : Option Nat) (events : List PromptEvent)
    (fs0 : FS) (hdry : cfg.dry_run = true) :
    organize_files cfg backup true entries available events fs0 =
      (.completed,
       { processed := (entries.filter (fun e => is_supported_file e.suffix)).length,
         skipped := (entries.filter (fun e => !is_supported_file e.suffix)).length },
       fs0) := by
  simp only [organize_files, if_true,
    preflight_dry cfg (calculate_total_size entries).1 available events hdry,
    walkFiles_dry cfg backup hdry entries ⟨0, 0⟩ fs0]
  simp

/-- Witness for C3 at a concrete dry run over one supported and one
unsupported file: the tree is unchanged, the counters report 1 and 1. -/
theorem C3_dry_run_frame_witness :
    organize_files ⟨true, false, false⟩ ["d"] true
        [⟨"a", ".jpg", ⟨2023, 5⟩, ["s", "a.jpg"], some 100, none⟩,
         ⟨"b", ".exe", ⟨2023, 5⟩, ["s", "b.exe"], some 50, none⟩]
        (some 0) [] ⟨[], [["x"]]⟩ =
      (.completed, ⟨1, 1⟩, ⟨[], [["x"]]⟩) :=
  (C3_dry_run_frame ⟨true, false, false⟩ ["d"]
    [⟨"a", ".jpg", ⟨2023, 5⟩, ["s", "a.jpg"], some 100, none⟩,
     ⟨"b", ".exe", ⟨2023, 5⟩, ["s", "b.exe"], some 50, none⟩]
    (some 0) [] ⟨[], [["x"]]⟩ rfl).trans (by decide)

/-- C4: `get_file_date` returns the filesystem creation timestamp when the
platform exposes one (`st_birthtime`), otherwise the last-modification
timestamp; when the metadata read fails it returns the current wall-clock
time, so the file is bucketed into the run's current year/month. -/
theorem C4_get_file_date (statRes : Option StatResult) (now : Nat) :
    (∀ st b, statRes = some st → st.birthtime = some b → get_file_date statRes now = b) ∧
    (∀ st, statRes = some st → st.birthtime = none → get_file_date statRes now = st.mtime) ∧
    (statRes = none → get_file_date statRes now = now) := by
  refine ⟨?_, ?_, ?_⟩
  · intro st b h1 h2
    rw [h1]
    simp [get_file_date, h2]
  · intro st h1 h2
    rw [h1]
    simp [get_file_date, h2]
  · intro h1
    rw [h1]
    simp [get_file_date]

/-- Witness for C4 at concrete stat results: birth time 42 preferred,
modification time 7 when no birth time, current time 99 on failure. -/
theorem C4_get_file_date_witness :
    get_file_date (some ⟨some 42, 7⟩) 99 = 42 ∧
    get_file_date (some ⟨none, 7⟩) 99 = 7 ∧
    get_file_date none 99 = 99 :=
  ⟨(C4_get_file_date (some ⟨some 42, 7⟩) 99).1 ⟨some 42, 7⟩ 42 rfl rfl,
   (C4_get_file_date (some ⟨none, 7⟩) 99).2.1 ⟨none, 7⟩ rfl rfl,
   (C4_get_file_date none 99).2.2 rfl⟩

/-- C6: a walked file qualifies iff its lower-cased extension is in the
supported set; a walked file with an unsupported extension is counted as
skipped by the transfer walk and the filesystem — in particular the
destination tree — is left untouched by its step. -/
theorem C6_unsupported_skipped (suffix : String) (cfg : Config) (backup : List String)
    (stats : RunStats) (fs : FS) (e : FileEntry)
    (h : is_supported_file e.suffix = false) :
    (is_supported_file suffix = true ↔ pyLower suffix ∈ supported_extensions) ∧
    walkStep cfg backup (stats, fs) e = ({ stats with skipped := stats.skipped + 1 }, fs) := by
  constructor
  · simp [is_supported_file]
  · simp [walkStep, h]

/-- Witness for C6: `.JPG` qualifies, `.exe` does not and its walk step only
increments the skip counter. -/
theorem C6_unsupported_skipped_witness :
    is_supported_file ".JPG" = true ∧ is_supported_file ".exe" = false ∧
    walkStep ⟨false, true, true⟩ ["d"] (⟨3, 4⟩, ⟨[], []⟩)
        ⟨"b", ".exe", ⟨2023, 5⟩, ["s", "b.exe"], some 50, none⟩ = (⟨3, 5⟩, ⟨[], []⟩) := by
  have h := C6_unsupported_skipped ".JPG" ⟨false, true, true⟩ ["d"] ⟨3, 4⟩ ⟨[], []⟩
    ⟨"b", ".exe", ⟨2023, 5⟩, ["s", "b.exe"], some 50, none⟩ (by decide)
  exact ⟨h.1.mpr (by decide), by decide, h.2.trans (by decide)⟩

/-- C7: the destination directory is `destRoot/<year>/<2-digit month>`, the
year as a 4-digit numeral for the years arising from timestamps; it is a
function of the date's year and month only (the flags and the filesystem
state do not change it), and distinct (year, month) pairs with valid months
give distinct directories. -/
theorem C7_destination_resolver (cfg cfg' : Config) (backup : List String)
    (fs fs' : FS) (d d' : Date)
    (hm : 1 ≤ d.month ∧ d.month ≤ 12) (hm' : 1 ≤ d'.month ∧ d'.month ≤ 12)
    (hy : 1000 ≤ d.year ∧ d.year ≤ 9999) :
    (create_destination_structure cfg backup d fs).1
      = backup ++ [natStr d.year, zfill2 d.month] ∧
    (natStr d.year).length = 4 ∧ (zfill2 d.month).length = 2 ∧
    ((create_destination_structure cfg backup d fs).1
        = (create_destination_structure cfg' backup d' fs').1 →
      d.year = d'.year ∧ d.month = d'.month) := by
  refine ⟨cds_fst cfg backup d fs, natStr_length_four hy.1 hy.2, ?_, ?_⟩
  · have hlen : ∀ m, m < 13 → (zfill2 m).length = 2 := by decide
    exact hlen d.month (by omega)
  · intro heq
    rw [cds_fst, cds_fst] at heq
    have h2 := List.append_cancel_left heq
    simp only [List.cons.injEq, and_true] at h2
    have hzi : ∀ m1, m1 < 13 → ∀ m2, m2 < 13 → zfill2 m1 = zfill2 m2 → m1 = m2 := by decide
    exact ⟨natStr_injective _ _ h2.1, hzi d.month (by omega) d'.month (by omega) h2.2⟩

/-- Witness for C7 at May and June 2023: the paths are `d/2023/05` and
`d/2023/06`, with the stated digit widths. -/
theorem C7_destination_resolver_witness :
    (create_destination_structure ⟨false, false, false⟩ ["d"] ⟨2023, 5⟩ ⟨[], []⟩).1
      = ["d", "2023", "05"] ∧ (natStr 2023).length = 4 ∧ (zfill2 5).length = 2 := by
  have h := C7_destination_resolver ⟨false, false, false⟩ ⟨true, false, false⟩ ["d"]
    ⟨[], []⟩ ⟨[], []⟩ ⟨2023, 5⟩ ⟨2023, 6⟩ (by decide) (by decide) (by decide)
  exact ⟨h.1.trans (by decide), h.2.1, h.2.2.1⟩

/-- C8: at the confirmation prompt an empty input line or a keyboard
interrupt is answered as "no", and the prompt answers "yes" only when some
line of the input, stripped and lower-cased, is exactly "y" or "yes". -/
theorem C8_confirm_fail_safe (rest evs : List PromptEvent) :
    confirm_operation (PromptEvent.line "" :: rest) = some false ∧
    confirm_operation (PromptEvent.interrupt :: rest) = some false ∧
    (confirm_operation evs = some true →
      ∃ s, PromptEvent.line s ∈ evs ∧
        (pyLower (pyStrip s) = "y" ∨ pyLower (pyStrip s) = "yes")) := by
  refine ⟨?_, ?_, confirm_yes_exists evs⟩
  · rw [confirm_operation]
    have hpa : promptAnswer (PromptEvent.line "") = some false := by decide
    rw [hpa]
  · rw [confirm_operation]
    have hpa : promptAnswer PromptEvent.interrupt = some false := rfl
    rw [hpa]

/-- Witness for C8: empty line and interrupt cancel; the stream
`[" YES "]` that does confirm contains an explicit yes line. -/
theorem C8_confirm_fail_safe_witness :
    confirm_operation [PromptEvent.line ""] = some false ∧
    confirm_operation [PromptEvent.interrupt] = some false ∧
    (∃ s, PromptEvent.line s ∈ [PromptEvent.line " YES "] ∧
      (pyLower (pyStrip s) = "y" ∨ pyLower (pyStrip s) = "yes")) := by
  have h := C8_confirm_fail_safe [] [PromptEvent.line " YES "]
  exact ⟨h.1, h.2.1, h.2.2 (by decide)⟩

/-- C10: in a real run whose pre-flight scan totals zero bytes, both the
space check and the confirmation prompt are skipped — the result does not
depend on the available space or on the prompt input — and the transfer
walk proceeds directly. -/
theorem C10_zero_total_skips_gate (cfg : Config) (backup : List String)
    (entries : List FileEntry) (available : Option Nat) (events : List PromptEvent)
    (fs0 : FS) (hreal : cfg.dry_run = false)
    (h0 : (calculate_total_size entries).1 = 0) :
    organize_files cfg backup true entries available events fs0 =
      (.completed, walkFiles cfg backup (⟨0, 0⟩, fs0) entries) := by
  simp only [organize_files, if_true, h0, preflight_total_zero]

/-- Witness for C10: a real move run over one supported file whose size
stat failed (total 0) with zero available space and no prompt input still
walks and transfers the file. -/
theorem C10_zero_total_skips_gate_witness :
    (calculate_total_size [⟨"a", ".jpg", ⟨2023, 5⟩, ["s", "a.jpg"], none, none⟩]).1 = 0 ∧
    organize_files ⟨false, false, false⟩ ["d"] true
        [⟨"a", ".jpg", ⟨2023, 5⟩, ["s", "a.jpg"], none, none⟩] (some 0) [] ⟨[], []⟩ =
      (.completed, ⟨1, 0⟩, ⟨[["d", "2023", "05", "a.jpg"]], [["d", "2023", "05"]]⟩) := by
  refine ⟨by decide, ?_⟩
  rw [C10_zero_total_skips_gate ⟨false, false, false⟩ ["d"]
    [⟨"a", ".jpg", ⟨2023, 5⟩, ["s", "a.jpg"], none, none⟩] (some 0) [] ⟨[], []⟩ rfl (by decide)]
  decide

/-- C1 counterexample: in a dry run (move mode) over one 100-byte supported
file with 0 bytes available, the available space is below the required
space (`100 * 0.10 = 10`), yet the run does not refuse: it runs the walk
and reports `processed = 1 ≠ 0`, so the claim read over every run fails —
the space gate is only executed in real (non-dry) runs. -/
theorem C1_space_gate_counterexample :
    ((0 : ℚ) < requiredSpace false
      (calculate_total_size [⟨"a", ".jpg", ⟨2023, 5⟩, ["s", "a.jpg"], some 100, none⟩]).1) ∧
    (organize_files ⟨true, false, false⟩ ["d"] true
        [⟨"a", ".jpg", ⟨2023, 5⟩, ["s", "a.jpg"], some 100, none⟩]
        (some 0) [] ⟨[], []⟩).2.1.processed ≠ 0 := by
  constructor
  · have h : (calculate_total_size
        [⟨"a", ".jpg", ⟨2023, 5⟩, ["s", "a.jpg"], some 100, none⟩]).1 = 100 := by decide
    rw [h, requiredSpace]
    norm_num
  · decide

/-- C1 (amended): in a real (non-dry-run) run whose disk-space query
succeeds, the required space is the full total in copy mode and 10% of the
total in move mode, and whenever the available bytes are below the required
space the run refuses unconditionally before transferring anything: it
returns `refusedSpace` with both counters zero and the filesystem
unchanged. -/
theorem C1_space_gate_real_run (cfg : Config) (backup : List String)
    (entries : List FileEntry) (a : Nat) (events : List PromptEvent) (fs0 : FS)
    (hreal : cfg.dry_run = false)
    (hlt : (a : ℚ) < requiredSpace cfg.copy_mode (calculate_total_size entries).1) :
    requiredSpace cfg.copy_mode (calculate_total_size entries).1
      = (if cfg.copy_mode then ((calculate_total_size entries).1 : ℚ)
         else ((calculate_total_size entries).1 : ℚ) * (1 / 10)) ∧
    organize_files cfg backup true entries (some a) events fs0
      = (.refusedSpace, ⟨0, 0⟩, fs0) := by
  refine ⟨rfl, ?_⟩
  have hsp : spaceRefused cfg.copy_mode (some a) (calculate_total_size entries).1 = true := by
    rw [spaceRefused, if_pos hlt]
  simp only [organize_files, if_true,
    preflight_real_refused cfg (calculate_total_size entries).1 (some a) events hreal hsp]

/-- Witness for the amended C1: a real move run over one 100-byte file with
5 bytes available (5 < 10 required) refuses with zero counters and an
untouched filesystem. -/
theorem C1_space_gate_real_run_witness :
    (((5 : Nat) : ℚ) < requiredSpace false
      (calculate_total_size [⟨"a", ".jpg", ⟨2023, 5⟩, ["s", "a.jpg"], some 100, none⟩]).1) ∧
    organize_files ⟨false, false, false⟩ ["d"] true
        [⟨"a", ".jpg", ⟨2023, 5⟩, ["s", "a.jpg"], some 100, none⟩]
        (some 5) [] ⟨[], []⟩ = (.refusedSpace, ⟨0, 0⟩, ⟨[], []⟩) := by
  have hlt : ((5 : Nat) : ℚ) < requiredSpace false
      (calculate_total_size [⟨"a", ".jpg", ⟨2023, 5⟩, ["s", "a.jpg"], some 100, none⟩]).1 := by
    have h : (calculate_total_size
        [⟨"a", ".jpg", ⟨2023, 5⟩, ["s", "a.jpg"], some 100, none⟩]).1 = 100 := by decide
    rw [h, requiredSpace]
    norm_num
  exact ⟨hlt, (C1_space_gate_real_run ⟨false, false, false⟩ ["d"]
    [⟨"a", ".jpg", ⟨2023, 5⟩, ["s", "a.jpg"], some 100, none⟩] 5 [] ⟨[], []⟩ rfl hlt).2⟩

/-- C9: whether the run is a dry run is decided solely by the absence of
`--execute`: changing the parsed `--dry-run` flag never changes the
constructed configuration, `dry_run` is exactly the negation of `execute`,
and with both `--dry-run` and `--execute` supplied the configuration is a
real run — shown mutating the filesystem on a concrete input. -/
theorem C9_dry_run_flag_ignored (a : Args) (x : Bool) :
    mainConfig { a with dry_run := x } = mainConfig a ∧
    (mainConfig a).dry_run = !a.execute ∧
    (mainConfig ⟨"s", "d", true, true, true, true⟩).dry_run = false ∧
    (organize_files (mainConfig ⟨"s", "d", true, true, true, true⟩) ["d"] true
        [⟨"a", ".jpg", ⟨2023, 5⟩, ["s", "a.jpg"], some 100, none⟩] none [] ⟨[], []⟩).2.2
      ≠ (⟨[], []⟩ : FS) :=
  ⟨rfl, rfl, rfl, by decide⟩

/-- C5: when the underlying copy/move of a supported file fails in a real
run, the failure is classified by message content — the distinguished
disk-full diagnostic exactly when the message mentions an out-of-space
condition, a generic one otherwise — the file is counted as skipped in
either case, and the walk continues with the remaining files instead of
aborting the run. -/
theorem C5_transfer_failure_skips (cfg : Config) (backup : List String)
    (stats : RunStats) (fs : FS) (e : FileEntry) (msg : String) (rest : List FileEntry)
    (hreal : cfg.dry_run = false) (hsup : is_supported_file e.suffix = true)
    (herr : e.transferError = some msg) :
    (process_file cfg e (create_destination_structure cfg backup e.date fs).1
        (create_destination_structure cfg backup e.date fs).2).1
      = (if classify_disk_full msg then .skippedDiskFull else .skippedGeneric) ∧
    (classify_disk_full msg
      = (strContains msg "No space left on device"
          || strContains (pyLower msg) "not enough space")) ∧
    walkFiles cfg backup (stats, fs) (e :: rest)
      = walkFiles cfg backup
          ({ stats with skipped := stats.skipped + 1 },
           (create_destination_structure cfg backup e.date fs).2) rest := by
  refine ⟨?_, rfl, ?_⟩
  · simp [process_file, hreal, herr]
  · rw [walkFiles]
    have hstep : walkStep cfg backup (stats, fs) e =
        ({ stats with skipped := stats.skipped + 1 },
         (create_destination_structure cfg backup e.date fs).2) := by
      by_cases hc : classify_disk_full msg = true
      · simp [walkStep, hsup, process_file, hreal, herr, hc]
      · have hc' : classify_disk_full msg = false := by
          revert hc
          cases classify_disk_full msg <;> simp
        simp [walkStep, hsup, process_file, hreal, herr, hc']
    rw [hstep]

/-- Witness for C5: a real copy run where `a.jpg` fails with a disk-full
message and the following `b.png` still transfers; the failed file is
classified disk-full and counted skipped. -/
theorem C5_transfer_failure_skips_witness :
    (process_file ⟨false, true, true⟩
        ⟨"a", ".jpg", ⟨2023, 5⟩, ["s", "a.jpg"], some 100, some "No space left on device"⟩
        (create_destination_structure ⟨false, true, true⟩ ["d"] ⟨2023, 5⟩ ⟨[], []⟩).1
        (create_destination_structure ⟨false, true, true⟩ ["d"] ⟨2023, 5⟩ ⟨[], []⟩).2).1
      = .skippedDiskFull ∧
    walkFiles ⟨false, true, true⟩ ["d"] (⟨0, 0⟩, ⟨[], []⟩)
        [⟨"a", ".jpg", ⟨2023, 5⟩, ["s", "a.jpg"], some 100, some "No space left on device"⟩,
         ⟨"b", ".png", ⟨2023, 5⟩, ["s", "b.png"], some 50, none⟩]
      = (⟨1, 1⟩, ⟨[["d", "2023", "05", "b.png"]], [["d", "2023", "05"]]⟩) := by
  have h := C5_transfer_failure_skips ⟨false, true, true⟩ ["d"] ⟨0, 0⟩ ⟨[], []⟩
    ⟨"a", ".jpg", ⟨2023, 5⟩, ["s", "a.jpg"], some 100, some "No space left on device"⟩
    "No space left on device"
    [⟨"b", ".png", ⟨2023, 5⟩, ["s", "b.png"], some 50, none⟩]
    rfl (by decide) rfl
  exact ⟨h.1.trans (by decide), h.2.2.trans (by decide)⟩

/-- C2: collision handling of a transfer — the chosen destination is the
first candidate (`name.ext`, `name_1.ext`, `name_2.ext`, ...) not already
present, all earlier candidates being present; when the plain name exists
the chosen counter is positive, and two successful real transfers of
equally named files into the same directory place both files at distinct
paths, the second leaving the first in place. -/
theorem C2_collision_safe (fs : FS) (destDir : List String) (stem suffix : String)
    (e1 e2 : FileEntry)
    (h1 : e1.stem = stem ∧ e1.suffix = suffix ∧ e1.transferError = none)
    (h2 : e2.stem = stem ∧ e2.suffix = suffix ∧ e2.transferError = none)
    (hexist : candPath destDir stem suffix 0 ∈ fs.files) :
    findDest fs destDir stem suffix ∉ fs.files ∧
    (∃ k, 0 < k ∧ findDest fs destDir stem suffix = candPath destDir stem suffix k ∧
      ∀ i < k, candPath destDir stem suffix i ∈ fs.files) ∧
    (process_file ⟨false, true, true⟩ e1 destDir fs).1 = .success ∧
    (process_file ⟨false, true, true⟩ e2 destDir
        (process_file ⟨false, true, true⟩ e1 destDir fs).2).1 = .success ∧
    findDest (process_file ⟨false, true, true⟩ e1 destDir fs).2 destDir stem suffix
      ≠ findDest fs destDir stem suffix ∧
    findDest fs destDir stem suffix
      ∈ (process_file ⟨false, true, true⟩ e2 destDir
          (process_file ⟨false, true, true⟩ e1 destDir fs).2).2.files ∧
    findDest (process_file ⟨false, true, true⟩ e1 destDir fs).2 destDir stem suffix
      ∈ (process_file ⟨false, true, true⟩ e2 destDir
          (process_file ⟨false, true, true⟩ e1 destDir fs).2).2.files := by
  obtain ⟨h1s, h1x, h1e⟩ := h1
  obtain ⟨h2s, h2x, h2e⟩ := h2
  obtain ⟨hfree1, m, hm1, hm2⟩ := findDest_spec fs destDir stem suffix
  have hpf1 : process_file ⟨false, true, true⟩ e1 destDir fs =
      (.success, { fs with files := findDest fs destDir stem suffix :: fs.files }) := by
    simp [process_file, h1e, h1s, h1x]
  obtain ⟨hfree2, m2, hm21, hm22⟩ :=
    findDest_spec { fs with files := findDest fs destDir stem suffix :: fs.files }
      destDir stem suffix
  have hpf2 : process_file ⟨false, true, true⟩ e2 destDir
      { fs with files := findDest fs destDir stem suffix :: fs.files } =
      (.success, { fs with files :=
        ((findDest ({ fs with files := findDest fs destDir stem suffix :: fs.files })
            destDir stem suffix)
          :: findDest fs destDir stem suffix :: fs.files) }) := by
    simp [process_file, h2e, h2s, h2x]
  have hne : findDest ({ fs with files := findDest fs destDir stem suffix :: fs.files })
      destDir stem suffix ≠ findDest fs destDir stem suffix := by
    intro hEq
    apply hfree2
    rw [hEq]
    exact List.mem_cons_self _ _
  have hmpos : 0 < m := by
    rcases Nat.eq_zero_or_pos m with h0 | h
    · exfalso
      apply hfree1
      rw [hm1, h0]
      exact hexist
    · exact h
  refine ⟨hfree1, ⟨m, hmpos, hm1, hm2⟩, ?_, ?_, ?_, ?_, ?_⟩
  · rw [hpf1]
  · rw [hpf1, hpf2]
  · rw [hpf1]
    exact hne
  · rw [hpf1, hpf2]
    exact List.mem_cons_of_mem _ (List.mem_cons_self _ _)
  · rw [hpf1, hpf2]
    exact List.mem_cons_self _ _

/-- Witness for C2: with `d/2023/05/a.jpg` present, the first transfer of
another `a.jpg` goes to `a_1.jpg` and a second one to `a_2.jpg`; all three
files end up present. -/
theorem C2_collision_safe_witness :
    findDest ⟨[["d", "2023", "05", "a.jpg"]], []⟩ ["d", "2023", "05"] "a" ".jpg"
      = ["d", "2023", "05", "a_1.jpg"] ∧
    findDest ⟨[["d", "2023", "05", "a.jpg"]], []⟩ ["d", "2023", "05"] "a" ".jpg"
      ∉ (⟨[["d", "2023", "05", "a.jpg"]], []⟩ : FS).files ∧
    (process_file ⟨false, true, true⟩ ⟨"a", ".jpg", ⟨2023, 5⟩, ["s2", "a.jpg"], some 2, none⟩
        ["d", "2023", "05"]
        (process_file ⟨false, true, true⟩
          ⟨"a", ".jpg", ⟨2023, 5⟩, ["s1", "a.jpg"], some 1, none⟩
          ["d", "2023", "05"] ⟨[["d", "2023", "05", "a.jpg"]], []⟩).2).2.files
      = [["d", "2023", "05", "a_2.jpg"], ["d", "2023", "05", "a_1.jpg"],
         ["d", "2023", "05", "a.jpg"]] := by
  have h := C2_collision_safe ⟨[["d", "2023", "05", "a.jpg"]], []⟩ ["d", "2023", "05"] "a" ".jpg"
    ⟨"a", ".jpg", ⟨2023, 5⟩, ["s1", "a.jpg"], some 1, none⟩
    ⟨"a", ".jpg", ⟨2023, 5⟩, ["s2", "a.jpg"], some 2, none⟩
    ⟨rfl, rfl, rfl⟩ ⟨rfl, rfl, rfl⟩ (by decide)
  exact ⟨by decide, h.1, by decide⟩
